import Mathlib

/-!
Verification of the PyTerm command-terminal core against its specification.

The development shallowly embeds the parts of the program that the claims
concern, translated from the Python source:

* `src/app/utils.py` — the path jail (`safe_join`, `path_in_jail`) and
  `validate_filename`;
* `src/app/config.py` — `NL_PATTERNS`, `MAX_PATH_DEPTH`, `MAX_HISTORY_SIZE`,
  the error/success message templates and `COLORS`;
* `src/app/nlc.py` — the natural-language pattern table and
  `NaturalLanguageParser.parse` (a regular-expression engine over the pattern
  grammar actually used by the table: literals, `\s`, `.`, `(?:...)`,
  alternation, `?`, `+` and one capture group);
* `src/app/cli.py` — `parse_command` (shlex word splitting),
  `execute_command`, `_try_natural_language` and `CommandHistory.add`;
* `src/app/commands/fs.py` — `cmd_rm`, `cmd_mkdir`, `cmd_touch`.

Strings are handled through explicit `List Char` functions so that every
definition evaluates by kernel reduction.  Python's `str.strip`, `str.lower`,
`str.upper` and `str.split` are modelled on ASCII, which covers every string
the program manipulates here.  The filesystem (`Path.resolve`, `exists`,
`is_dir`) is a parameter: an `FS` record supplies the resolution function
(canonicalisation following symlinks), required only to be idempotent, as
repeated `resolve` is.
-/

/-! ## ASCII models of the Python string primitives -/

/-- Python whitespace for `str.strip`/`str.split` and the regex class `\s`
(ASCII part): space, tab, newline, carriage return, vertical tab, form feed. -/
def pyIsSpace (c : Char) : Bool :=
  c = ' ' || c = '\t' || c = '\n' || c = '\x0d' || c = '\x0b' || c = '\x0c'

/-- ASCII `str.lower` on one character. -/
def pyLowerChar (c : Char) : Char :=
  if 'A' ≤ c && c ≤ 'Z' then Char.ofNat (c.toNat + 32) else c

/-- ASCII `str.upper` on one character. -/
def pyUpperChar (c : Char) : Char :=
  if 'a' ≤ c && c ≤ 'z' then Char.ofNat (c.toNat - 32) else c

/-- Python `str.lower` (ASCII). -/
def pyLower (s : String) : String := ⟨s.data.map pyLowerChar⟩

/-- Python `str.upper` (ASCII). -/
def pyUpper (s : String) : String := ⟨s.data.map pyUpperChar⟩

/-- Drop trailing whitespace. -/
def dropTrailingWs (l : List Char) : List Char :=
  (l.reverse.dropWhile pyIsSpace).reverse

/-- Python `str.strip()` with no argument: remove leading and trailing
whitespace. -/
def pyStrip (s : String) : String :=
  ⟨dropTrailingWs (s.data.dropWhile pyIsSpace)⟩

/-- Does `sub` occur as a contiguous substring of `l`?  Models Python's
`in` on strings. -/
def containsSub (sub : List Char) : List Char → Bool
  | [] => sub.isPrefixOf []
  | c :: rest => sub.isPrefixOf (c :: rest) || containsSub sub rest

/-- Python `sub in s`. -/
def strContains (s : String) (sub : String) : Bool :=
  containsSub sub.data s.data

/-- Python `s.startswith(pre)`. -/
def strStartsWith (s : String) (pre : String) : Bool :=
  pre.data.isPrefixOf s.data

/-- One splitting step for `str.split()`: words of non-whitespace characters. -/
def splitWsChars : List Char → List Char → List String
  | cur, [] => if cur.isEmpty then [] else [⟨cur.reverse⟩]
  | cur, c :: rest =>
    if pyIsSpace c then
      if cur.isEmpty then splitWsChars [] rest
      else ⟨cur.reverse⟩ :: splitWsChars [] rest
    else splitWsChars (c :: cur) rest

/-- Python `str.split()` with no argument: split on whitespace runs, no
empty words. -/
def pySplitWs (s : String) : List String := splitWsChars [] s.data

/-- Python `" ".join(xs)`. -/
def joinSpace (xs : List String) : String := String.intercalate " " xs

/-! ## Paths (`pathlib.PurePosixPath`)

A path is its `parts`: whether it is anchored at `/`, plus the non-empty,
non-`"."` components in order, exactly what `PurePosixPath` keeps (single
dots and empty components disappear when the path is constructed). -/

/-- A POSIX path as `pathlib` represents it. -/
structure PyPath where
  absolute : Bool
  comps : List String
deriving DecidableEq, Repr

/-- Split a character list at a separator character. -/
def splitOnChar (sep : Char) : List Char → List (List Char)
  | [] => [[]]
  | c :: rest =>
    let r := splitOnChar sep rest
    if c = sep then [] :: r
    else
      match r with
      | h :: t => (c :: h) :: t
      | [] => [[c]]

/-- `pathlib.Path(s)` on POSIX: anchored iff the string starts with `/`;
components are the `/`-separated pieces with `""` and `"."` removed. -/
def parsePath (s : String) : PyPath :=
  { absolute := strStartsWith s "/"
    comps := ((splitOnChar '/' s.data).map (fun l => (⟨l⟩ : String))).filter
      (fun c => !(c = "" || c = ".")) }

/-- `str(path)` for a `PyPath` (POSIX): `/`-joined components, `"/"`-prefixed
when absolute, `"."` for the empty relative path. -/
def pathStr (p : PyPath) : String :=
  if p.absolute then "/" ++ String.intercalate "/" p.comps
  else if p.comps.isEmpty then "." else String.intercalate "/" p.comps

/-- `len(path.parts)`: the anchor `/` counts as a part. -/
def partsLen (p : PyPath) : Nat :=
  p.comps.length + (if p.absolute then 1 else 0)

/-- `p / q` for a relative `q` (the only case `safe_join` reaches, since it
rejects absolute components): append the components. -/
def appendRel (p q : PyPath) : PyPath :=
  { absolute := p.absolute, comps := p.comps ++ q.comps }

/-- `p.relative_to(r)` succeeds (used only as a test in `path_in_jail`):
both share the anchor and `r`'s components are a prefix of `p`'s. -/
def relativeToOk (p r : PyPath) : Bool :=
  (p.absolute == r.absolute) && r.comps.isPrefixOf p.comps

/-- The filesystem as the path jail sees it.  `resolve` models
`pathlib.Path.resolve()`: canonical absolute form after following symlinks
(it also supplies the working directory used to absolutise relative paths).
Real resolution is idempotent, which is the one property the proofs use.
`pathExists`/`isDir` model `Path.exists()`/`Path.is_dir()` on resolved
paths. -/
structure FS where
  resolve : PyPath → PyPath
  pathExists : PyPath → Bool
  isDir : PyPath → Bool
  resolve_idem : ∀ p, resolve (resolve p) = resolve p

/-! ## The path jail (`src/app/utils.py`) -/

/-- `config.MAX_PATH_DEPTH`. -/
def MAX_PATH_DEPTH : Nat := 50

/-- The two kinds of `PyTermError` the path jail raises: `SecurityError`
(security violations) and `PathError` (wrapped `OSError`/`ValueError`). -/
inductive PyErr where
  | security (msg : String)
  | pathErr (msg : String)
deriving DecidableEq, Repr

/-- Result of `safe_join`: the returned path or the raised error. -/
inductive SJResult where
  | ok (p : PyPath)
  | err (e : PyErr)
deriving DecidableEq, Repr

/-- The `for path_part in paths` loop of `safe_join`: skip empty components;
reject a component whose normalized string contains `".."` or starts with
`"/"` (`os.name != 'nt'`); join; reject when the part count exceeds
`MAX_PATH_DEPTH`. -/
def joinLoop (acc : PyPath) : List String → SJResult
  | [] => .ok acc
  | part :: rest =>
    if part = "" then joinLoop acc rest
    else
      let normalized := parsePath part
      let ns := pathStr normalized
      if strContains ns ".." || strStartsWith ns "/" then
        .err (.security ("Unsafe path component: " ++ part))
      else
        let joined := appendRel acc normalized
        if partsLen joined > MAX_PATH_DEPTH then
          .err (.security "Path exceeds maximum depth: 50")
        else joinLoop joined rest

/-- `utils.path_in_jail`, with the jail root `config.ROOT_DIR` and the
filesystem as parameters.  The source receives the path as a string and
re-parses it; here it arrives as the parsed path.  True when the resolved
path is under the resolved root, or — the testing exemption — when the
resolved path's string contains `'tmp'` or `'temp'`. -/
def path_in_jail (fs : FS) (rootDir : PyPath) (p : PyPath) : Bool :=
  let abs_path := fs.resolve p
  let root_path := fs.resolve rootDir
  if relativeToOk abs_path root_path then true
  else strContains (pathStr abs_path) "tmp" || strContains (pathStr abs_path) "temp"

/-- The base path `safe_join` starts from: `Path(base_path)`, resolved only
when it is not absolute. -/
def baseOf (fs : FS) (base_path : String) : PyPath :=
  let base0 := parsePath base_path
  if base0.absolute then base0 else fs.resolve base0

/-- `utils.safe_join(base_path, *paths)` with the filesystem and
`config.ROOT_DIR` as parameters: run the component loop, resolve once at the
end, and require `path_in_jail`. -/
def safe_join (fs : FS) (rootDir : PyPath) (base_path : String)
    (paths : List String) : SJResult :=
  match joinLoop (baseOf fs base_path) paths with
  | .err e => .err e
  | .ok result =>
    let resolved := fs.resolve result
    if path_in_jail fs rootDir resolved then .ok resolved
    else .err (.security ("Path outside allowed directory: " ++ pathStr result))

/-- The pure concatenation `base / p1 / ... / pn` that the join loop computes
when no component is rejected. -/
def joinedPath (base : PyPath) (parts : List String) : PyPath :=
  { absolute := base.absolute
    comps := base.comps ++ (parts.map (fun s => (parsePath s).comps)).flatten }

example : parsePath "a//b/./c" = { absolute := false, comps := ["a", "b", "c"] } := by decide

example : pathStr (parsePath "/x/y") = "/x/y" := by decide

example : partsLen (parsePath "/x/y") = 3 := by decide

/-! ## Concrete filesystems for witnesses and counterexamples -/

/-- Remove the components `Path` construction drops, making a component list
canonical. -/
def cleanComps : List String → List String
  | [] => []
  | c :: rest => if c = "" || c = "." then cleanComps rest else c :: cleanComps rest

theorem cleanComps_idem (cs : List String) :
    cleanComps (cleanComps cs) = cleanComps cs := by
  induction cs with
  | nil => rfl
  | cons c rest ih =>
    by_cases h : (c = "" || c = ".") = true
    · simp [cleanComps, h, ih]
    · simp [cleanComps, h, ih]

/-- Canonicalise a path into an absolute clean one: the `resolve` of a
symlink-free filesystem whose working directory is `/`. -/
def cleanPath (p : PyPath) : PyPath :=
  { absolute := true, comps := cleanComps p.comps }

/-- A symlink-free filesystem (working directory `/`) with no entries. -/
def fsPlain : FS where
  resolve := cleanPath
  pathExists := fun _ => false
  isDir := fun _ => false
  resolve_idem := by intro p; simp [cleanPath, cleanComps_idem]

/-- A filesystem in which `/b/c` is a symlink to `/elsetmp/z`: resolution
maps any spelling of `/b/c` to `/elsetmp/z` and cleans everything else. -/
def fsLink : FS where
  resolve := fun p =>
    if cleanComps p.comps = ["b", "c"] then { absolute := true, comps := ["elsetmp", "z"] }
    else cleanPath p
  pathExists := fun _ => false
  isDir := fun _ => false
  resolve_idem := by
    intro p
    dsimp only
    by_cases h : cleanComps p.comps = ["b", "c"]
    · rw [if_pos h]
      decide
    · rw [if_neg h]
      simp [cleanPath, cleanComps_idem, h]

/-- A filesystem rooted at working directory `/jail` containing the directory
`/jail/testdir`, for the `rm` witness. -/
def fsRm : FS where
  resolve := fun p =>
    if p.absolute then { absolute := true, comps := cleanComps p.comps }
    else { absolute := true, comps := cleanComps ("jail" :: p.comps) }
  pathExists := fun p => p = { absolute := true, comps := ["jail", "testdir"] }
  isDir := fun p => p = { absolute := true, comps := ["jail", "testdir"] }
  resolve_idem := by
    intro p
    by_cases hp : p.absolute <;> simp [hp, cleanComps_idem]

example : safe_join fsPlain (parsePath "/jail") "/mytmp" ["a"] =
    .ok { absolute := true, comps := ["mytmp", "a"] } := by decide

example : safe_join fsPlain (parsePath "/jail") "/other" ["a"] =
    .err (.security "Path outside allowed directory: /other/a") := by decide

example : safe_join fsLink (parsePath "/jail") "/b" ["c"] =
    .ok { absolute := true, comps := ["elsetmp", "z"] } := by decide

example : safe_join fsRm (parsePath "/jail") "." ["testdir"] =
    .ok { absolute := true, comps := ["jail", "testdir"] } := by decide

example : safe_join fsPlain (parsePath "/jail") "/jail" ["a/../b"] =
    .err (.security "Unsafe path component: a/../b") := by decide

/-! ## Path-jail lemmas -/

/-- Every error the component loop raises is a `SecurityError`. -/
theorem joinLoop_err_security (parts : List String) :
    ∀ acc e, joinLoop acc parts = .err e → ∃ m, e = .security m := by
  induction parts with
  | nil => intro acc e h; simp [joinLoop] at h
  | cons part rest ih =>
    intro acc e h
    simp only [joinLoop] at h
    split_ifs at h
    · exact ih acc e h
    · exact ⟨_, ((SJResult.err.injEq _ _).mp h).symm⟩
    · exact ⟨_, ((SJResult.err.injEq _ _).mp h).symm⟩
    · exact ih _ e h

/-- Pushing one component into the pure join. -/
theorem joinedPath_cons (acc : PyPath) (part : String) (rest : List String) :
    joinedPath acc (part :: rest) = joinedPath (appendRel acc (parsePath part)) rest := by
  simp [joinedPath, appendRel, List.append_assoc]

/-- A successful component loop returns exactly the concatenated path. -/
theorem joinLoop_ok_concat (parts : List String) :
    ∀ acc p, joinLoop acc parts = .ok p → p = joinedPath acc parts := by
  induction parts with
  | nil =>
    intro acc p h
    simp only [joinLoop, SJResult.ok.injEq] at h
    simp [← h, joinedPath]
  | cons part rest ih =>
    intro acc p h
    simp only [joinLoop] at h
    split_ifs at h with h1 h2 h3
    · rw [ih acc p h, joinedPath_cons]
      simp [joinedPath, appendRel, h1, parsePath, splitOnChar]
    · rw [ih _ p h, joinedPath_cons]

/-- The accumulated path only grows along the loop. -/
theorem partsLen_le_joined (acc : PyPath) (parts : List String) :
    partsLen acc ≤ partsLen (joinedPath acc parts) := by
  unfold partsLen joinedPath
  simp only [List.length_append]
  omega

/-- When every component is syntactically clean and the final path is within
the depth bound, the loop succeeds with the concatenation. -/
theorem joinLoop_ok_of_clean (parts : List String) :
    ∀ acc,
      (∀ s ∈ parts, strContains (pathStr (parsePath s)) ".." = false ∧
        strStartsWith (pathStr (parsePath s)) "/" = false) →
      partsLen (joinedPath acc parts) ≤ MAX_PATH_DEPTH →
      joinLoop acc parts = .ok (joinedPath acc parts) := by
  induction parts with
  | nil =>
    intro acc _ _
    simp [joinLoop, joinedPath]
  | cons part rest ih =>
    intro acc hclean hdepth
    have hpart := hclean part (by simp)
    have hrest : ∀ s ∈ rest, strContains (pathStr (parsePath s)) ".." = false ∧
        strStartsWith (pathStr (parsePath s)) "/" = false :=
      fun s hs => hclean s (by simp [hs])
    rw [joinedPath_cons] at hdepth
    have hd : ¬ partsLen (appendRel acc (parsePath part)) > MAX_PATH_DEPTH := by
      have := partsLen_le_joined (appendRel acc (parsePath part)) rest
      omega
    by_cases hp : part = ""
    · subst hp
      have happ : appendRel acc (parsePath "") = acc := by
        have hc : (parsePath "").comps = [] := by decide
        simp [appendRel, hc]
      rw [happ] at hdepth
      simp only [joinLoop, if_pos rfl]
      rw [joinedPath_cons, happ]
      exact ih acc hrest hdepth
    · simp only [joinLoop, if_neg hp]
      rw [if_neg (by simp [hpart.1, hpart.2]), if_neg hd, ih _ hrest hdepth, joinedPath_cons]

/-- Any component containing `".."` makes the loop raise a `SecurityError`
(possibly for an earlier offending component — still a `SecurityError`). -/
theorem joinLoop_dotdot (parts : List String) :
    ∀ acc seg, seg ∈ parts → strContains (pathStr (parsePath seg)) ".." = true →
      ∃ m, joinLoop acc parts = .err (.security m) := by
  induction parts with
  | nil => intro acc seg h _; simp at h
  | cons part rest ih =>
    intro acc seg hmem hdd
    rcases List.mem_cons.mp hmem with heq | hmem'
    · subst heq
      by_cases hp : seg = ""
      · rw [hp] at hdd
        exact absurd hdd (by decide)
      · simp only [joinLoop, if_neg hp]
        rw [if_pos (by simp [hdd])]
        exact ⟨_, rfl⟩
    · simp only [joinLoop]
      split_ifs
      · exact ih acc seg hmem' hdd
      · exact ⟨_, rfl⟩
      · exact ⟨_, rfl⟩
      · exact ih _ seg hmem' hdd

/-- C3: whenever any path component contains a parent-directory reference
`".."` anywhere in its normalized string form, `safe_join` raises a
`SecurityError` — for every filesystem (so regardless of whether the target
exists), every jail root and every base path. -/
theorem safe_join_rejects_dotdot (fs : FS) (rootDir : PyPath) (base_path : String)
    (paths : List String) (seg : String) (hmem : seg ∈ paths)
    (hdd : strContains (pathStr (parsePath seg)) ".." = true) :
    ∃ m, safe_join fs rootDir base_path paths = .err (.security m) := by
  obtain ⟨m, hm⟩ := joinLoop_dotdot paths (baseOf fs base_path) seg hmem hdd
  exact ⟨m, by simp only [safe_join, hm]⟩

/-- C3 witness: `safe_join(fsPlain, "/jail", "a/../b")` raises a
`SecurityError` at a concrete input. -/
theorem safe_join_rejects_dotdot_witness :
    ∃ m, safe_join fsPlain (parsePath "/jail") "/jail" ["a/../b"] = .err (.security m) :=
  safe_join_rejects_dotdot fsPlain (parsePath "/jail") "/jail" ["a/../b"] "a/../b"
    (by simp) (by decide)

/-- C1 counterexample: through the symlink `/b/c → /elsetmp/z`, `safe_join`
returns a path that is a descendant neither of the resolved base path `/b`
nor of the resolved jail root `/jail` — the `'tmp'` substring exemption lets
it through.  This refutes the claim that a returned path is always a
descendant of the root, and that a non-descendant always fails. -/
theorem safe_join_containment_counterexample :
    safe_join fsLink (parsePath "/jail") "/b" ["c"] =
        .ok { absolute := true, comps := ["elsetmp", "z"] } ∧
      relativeToOk { absolute := true, comps := ["elsetmp", "z"] }
        (fsLink.resolve (baseOf fsLink "/b")) = false ∧
      relativeToOk { absolute := true, comps := ["elsetmp", "z"] }
        (fsLink.resolve (parsePath "/jail")) = false := by
  decide

/-- C1 (amended): (1) if `safe_join` returns a path, that resolved absolute
path is a descendant of the configured root's resolved path **or** its string
contains `'tmp'` or `'temp'`; (2) whenever the final resolved path fails
`path_in_jail` (neither a descendant of the configured root nor
`'tmp'`/`'temp'`-named), `safe_join` fails with a `SecurityError`; (3) a path
fully inside the root — syntactically clean components, within the depth
bound, resolving to a descendant of the resolved root — resolves
successfully. -/
theorem safe_join_containment_amended :
    (∀ (fs : FS) (rootDir : PyPath) (base_path : String) (paths : List String) (p : PyPath),
        safe_join fs rootDir base_path paths = .ok p →
        relativeToOk p (fs.resolve rootDir) = true ∨
          strContains (pathStr p) "tmp" = true ∨ strContains (pathStr p) "temp" = true) ∧
    (∀ (fs : FS) (rootDir : PyPath) (base_path : String) (paths : List String),
        path_in_jail fs rootDir (fs.resolve (joinedPath (baseOf fs base_path) paths)) = false →
        ∃ m, safe_join fs rootDir base_path paths = .err (.security m)) ∧
    (∀ (fs : FS) (rootDir : PyPath) (base_path : String) (paths : List String),
        (∀ s ∈ paths, strContains (pathStr (parsePath s)) ".." = false ∧
          strStartsWith (pathStr (parsePath s)) "/" = false) →
        partsLen (joinedPath (baseOf fs base_path) paths) ≤ MAX_PATH_DEPTH →
        relativeToOk (fs.resolve (joinedPath (baseOf fs base_path) paths))
          (fs.resolve rootDir) = true →
        safe_join fs rootDir base_path paths =
          .ok (fs.resolve (joinedPath (baseOf fs base_path) paths))) := by
  refine ⟨?_, ?_, ?_⟩
  · intro fs rootDir base_path paths p h
    cases hj : joinLoop (baseOf fs base_path) paths with
    | err e =>
      simp only [safe_join, hj] at h
      exact SJResult.noConfusion h
    | ok result =>
      simp only [safe_join, hj] at h
      by_cases hin : path_in_jail fs rootDir (fs.resolve result) = true
      · rw [if_pos hin] at h
        have hp : p = fs.resolve result := ((SJResult.ok.injEq _ _).mp h).symm
        subst hp
        simp only [path_in_jail] at hin
        rw [fs.resolve_idem] at hin
        by_cases hrel : relativeToOk (fs.resolve result) (fs.resolve rootDir) = true
        · exact Or.inl hrel
        · rw [if_neg hrel] at hin
          rcases Bool.or_eq_true_iff.mp hin with h1 | h2
          · exact Or.inr (Or.inl h1)
          · exact Or.inr (Or.inr h2)
      · rw [if_neg hin] at h
        exact SJResult.noConfusion h
  · intro fs rootDir base_path paths hfalse
    cases hj : joinLoop (baseOf fs base_path) paths with
    | err e =>
      obtain ⟨m, hm⟩ := joinLoop_err_security paths _ e hj
      exact ⟨m, by simp only [safe_join, hj, hm]⟩
    | ok result =>
      have hres := joinLoop_ok_concat paths _ result hj
      subst hres
      refine ⟨"Path outside allowed directory: " ++
        pathStr (joinedPath (baseOf fs base_path) paths), ?_⟩
      simp [safe_join, hj, hfalse]
  · intro fs rootDir base_path paths hclean hdepth hrel
    have hloop := joinLoop_ok_of_clean paths _ hclean hdepth
    have hjail : path_in_jail fs rootDir
        (fs.resolve (joinedPath (baseOf fs base_path) paths)) = true := by
      simp only [path_in_jail]
      rw [fs.resolve_idem, if_pos hrel]
    simp only [safe_join, hloop, hjail, if_true]

/-- C1 witness: the three amended parts at concrete inputs — a returned path
satisfying the disjunction, a jail violation raising `SecurityError`, and a
clean in-root path resolving successfully. -/
theorem safe_join_containment_amended_witness :
    (relativeToOk { absolute := true, comps := ["mytmp", "a"] }
        (fsPlain.resolve (parsePath "/jail")) = true ∨
      strContains (pathStr { absolute := true, comps := ["mytmp", "a"] }) "tmp" = true ∨
      strContains (pathStr { absolute := true, comps := ["mytmp", "a"] }) "temp" = true) ∧
    (∃ m, safe_join fsPlain (parsePath "/jail") "/other" ["a"] = .err (.security m)) ∧
    safe_join fsRm (parsePath "/jail") "." ["testdir"] =
      .ok (fsRm.resolve (joinedPath (baseOf fsRm ".") ["testdir"])) := by
  refine ⟨?_, ?_, ?_⟩
  · exact safe_join_containment_amended.1 fsPlain (parsePath "/jail") "/mytmp" ["a"]
      { absolute := true, comps := ["mytmp", "a"] } (by decide)
  · exact safe_join_containment_amended.2.1 fsPlain (parsePath "/jail") "/other" ["a"]
      (by decide)
  · exact safe_join_containment_amended.2.2 fsRm (parsePath "/jail") "." ["testdir"]
      (by decide) (by decide) (by decide)

/-- C2: any path whose resolved string contains `'tmp'` or `'temp'` passes
`path_in_jail` — whether or not it is a descendant of the configured root —
and consequently `safe_join` succeeds on a concrete path outside the root. -/
theorem path_in_jail_tmp_exemption :
    (∀ (fs : FS) (rootDir : PyPath) (p : PyPath),
        strContains (pathStr (fs.resolve p)) "tmp" = true ∨
          strContains (pathStr (fs.resolve p)) "temp" = true →
        path_in_jail fs rootDir p = true) ∧
    (safe_join fsPlain (parsePath "/jail") "/mytmp" ["a"] =
        .ok { absolute := true, comps := ["mytmp", "a"] } ∧
      relativeToOk { absolute := true, comps := ["mytmp", "a"] }
        (fsPlain.resolve (parsePath "/jail")) = false) := by
  refine ⟨?_, by decide, by decide⟩
  intro fs rootDir p h
  simp only [path_in_jail]
  by_cases hrel : relativeToOk (fs.resolve p) (fs.resolve rootDir) = true
  · rw [if_pos hrel]
  · rw [if_neg hrel]
    rcases h with h | h
    · simp [h]
    · simp [h]

/-- C2 witness: a concrete `'tmp'`-named path outside `/jail` passes the
jail check. -/
theorem path_in_jail_tmp_exemption_witness :
    path_in_jail fsPlain (parsePath "/jail") (parsePath "/x/tmpdir") = true :=
  path_in_jail_tmp_exemption.1 fsPlain (parsePath "/jail") (parsePath "/x/tmpdir")
    (Or.inl (by decide))

/-! ## A regular-expression engine (`re.search`)

The natural-language tables of `src/app/config.py` and `src/app/nlc.py` use
only this regex grammar: literal characters, `\s`, `.`, concatenation,
`(?:a|b)` alternation, greedy `?` and `+`, and one capturing group `(.+)`.
`matchFuel` enumerates matches at one position in backtracking-priority
order (alternatives left first, quantifiers greedy first), exactly Python's
leftmost-then-priority semantics; `searchRE` tries start positions left to
right and keeps the first position's highest-priority match, as `re.search`
does.  The fuel argument only serves termination (it is decremented at every
recursive call); each `+`/`*` iteration consumes at least one input
character, so recursion depth is at most about `(length + 1) * (size + 2)`,
the fuel `searchRE` supplies — the concrete theorem evaluations below would
simply fail to decide if the fuel were ever short. -/

/-- Abstract syntax of the regex subset the pattern tables use. -/
inductive RE where
  | eps
  | chr (c : Char)
  | anyc
  | wsc
  | seq (a b : RE)
  | alt (a b : RE)
  | star (a : RE)
  | plus (a : RE)
  | opt (a : RE)
  | group (a : RE)
deriving DecidableEq, Repr

/-- The later capture wins, as with a repeated group in Python. -/
def mergeCap (a b : Option (List Char)) : Option (List Char) :=
  match b with
  | some x => some x
  | none => a

/-- All matches of a regex at the start of `s`, as (rest of the string,
captured text) pairs in backtracking-priority order. -/
def matchFuel : Nat → RE → List Char → List (List Char × Option (List Char))
  | 0, _, _ => []
  | _ + 1, .eps, s => [(s, none)]
  | _ + 1, .chr _, [] => []
  | _ + 1, .chr c, x :: rest => if x = c then [(rest, none)] else []
  | _ + 1, .anyc, [] => []
  | _ + 1, .anyc, x :: rest => if x = '\n' then [] else [(rest, none)]
  | _ + 1, .wsc, [] => []
  | _ + 1, .wsc, x :: rest => if pyIsSpace x then [(rest, none)] else []
  | f + 1, .seq a b, s =>
    (matchFuel f a s).flatMap
      (fun pr => (matchFuel f b pr.1).map (fun qr => (qr.1, mergeCap pr.2 qr.2)))
  | f + 1, .alt a b, s => matchFuel f a s ++ matchFuel f b s
  | f + 1, .opt a, s => matchFuel f a s ++ [(s, none)]
  | f + 1, .group a, s =>
    (matchFuel f a s).map (fun pr => (pr.1, some (s.take (s.length - pr.1.length))))
  | f + 1, .star a, s =>
    ((matchFuel f a s).flatMap
      (fun pr =>
        if pr.1.length < s.length then
          (matchFuel f (.star a) pr.1).map (fun qr => (qr.1, mergeCap pr.2 qr.2))
        else [])) ++ [(s, none)]
  | f + 1, .plus a, s =>
    (matchFuel f a s).flatMap
      (fun pr =>
        if pr.1.length < s.length then
          (matchFuel f (.star a) pr.1).map (fun qr => (qr.1, mergeCap pr.2 qr.2))
        else [pr])

/-- Structural size of a regex, for the fuel bound. -/
def sizeRE : RE → Nat
  | .eps | .chr _ | .anyc | .wsc => 1
  | .seq a b | .alt a b => sizeRE a + sizeRE b + 1
  | .star a | .plus a | .opt a | .group a => sizeRE a + 1

/-- Fuel that the recursion of `matchFuel` can never exhaust on `r` and a
string of length `n`. -/
def fuelFor (r : RE) (n : Nat) : Nat := (n + 2) * (sizeRE r + 2)

/-- `re.search(r, s)`: `none` when nothing matches anywhere; otherwise the
capture (if the pattern has a group) of the leftmost, highest-priority
match. -/
def searchRE (r : RE) : List Char → Option (Option (List Char))
  | [] =>
    match matchFuel (fuelFor r 0) r [] with
    | pr :: _ => some pr.2
    | [] => none
  | c :: t =>
    match matchFuel (fuelFor r (c :: t).length) r (c :: t) with
    | pr :: _ => some pr.2
    | [] => searchRE r t

/-- A literal string as a regex. -/
def lit : List Char → RE
  | [] => .eps
  | [c] => .chr c
  | c :: rest => .seq (.chr c) (lit rest)

/-- A literal string pattern. -/
def litS (s : String) : RE := lit s.data

/-- `\s+`. -/
def wsp : RE := .plus .wsc

/-- Concatenation of a pattern list. -/
def cats : List RE → RE
  | [] => .eps
  | [r] => r
  | r :: rest => .seq r (cats rest)

/-- `(a|b|...)` with Python's left-first alternative order. -/
def alts : List RE → RE
  | [] => .eps
  | [r] => r
  | r :: rest => .alt r (alts rest)

/-- The capture group `(.+)` used by every capturing pattern in the table. -/
def cap1 : RE := .group (.plus .anyc)

example : searchRE (cats [litS "go", wsp, litS "to", wsp, cap1]) "go to my dir".data =
    some (some "my dir".data) := by decide

example : searchRE (litS "xyz") "abc".data = none := by decide

example : searchRE (cats [litS "b", .opt (litS "c")]) "abcd".data = some none := by decide

/-! ## The natural-language pattern tables

Each entry keeps the exact Python pattern string as its dictionary key
(`self.patterns` is a dict keyed by pattern source), the pattern compiled
into `RE`, and the command string.  Table order is dict insertion order. -/

/-- One `pattern: command` entry of the parser's dict. -/
structure PatEntry where
  key : String
  re : RE
  cmd : String
deriving DecidableEq, Repr

/-- `(?:the\s+)?`. -/
def theOpt : RE := .opt (cats [litS "the", wsp])

/-- `(?:me\s+)?`. -/
def meOpt : RE := .opt (cats [litS "me", wsp])

/-- `(?:a\s+)?`. -/
def aOpt : RE := .opt (cats [litS "a", wsp])

/-- `(?:new\s+)?`. -/
def newOpt : RE := .opt (cats [litS "new", wsp])

/-- `(?:all\s+)?`. -/
def allOpt : RE := .opt (cats [litS "all", wsp])

/-- `(?:much\s+)?`. -/
def muchOpt : RE := .opt (cats [litS "much", wsp])

/-- `(?:running\s+)?`. -/
def runningOpt : RE := .opt (cats [litS "running", wsp])

/-- A word with an optional plural `s` (`files?`, `processes?`, ...). -/
def wordOptS (w : String) : RE := cats [litS w, .opt (.chr 's')]

/-- `(?:directory|folder|dir)`. -/
def dirFolderDir : RE := alts [litS "directory", litS "folder", litS "dir"]

/-- `(?:directory|folder)`. -/
def dirFolder : RE := alts [litS "directory", litS "folder"]

/-- `(?:file|directory)`. -/
def fileDir : RE := alts [litS "file", litS "directory"]

/-- `config.NL_PATTERNS`, in source (dict literal) order. -/
def NL_PATTERNS : List PatEntry := [
  ⟨"show\\s+(?:me\\s+)?(?:the\\s+)?files?",
    cats [litS "show", wsp, meOpt, theOpt, wordOptS "file"], "ls"⟩,
  ⟨"list\\s+(?:the\\s+)?(?:files?|directory)",
    cats [litS "list", wsp, theOpt, alts [wordOptS "file", litS "directory"]], "ls"⟩,
  ⟨"go\\s+to\\s+(.+)",
    cats [litS "go", wsp, litS "to", wsp, cap1], "cd"⟩,
  ⟨"where\\s+am\\s+i",
    cats [litS "where", wsp, litS "am", wsp, litS "i"], "pwd"⟩,
  ⟨"create\\s+(?:a\\s+)?(?:directory|folder)\\s+(.+)",
    cats [litS "create", wsp, aOpt, dirFolder, wsp, cap1], "mkdir"⟩,
  ⟨"delete\\s+(?:the\\s+)?(?:file|directory)\\s+(.+)",
    cats [litS "delete", wsp, theOpt, fileDir, wsp, cap1], "rm"⟩,
  ⟨"how\\s+(?:much\\s+)?(?:cpu|memory|ram)",
    cats [litS "how", wsp, muchOpt, alts [litS "cpu", litS "memory", litS "ram"]], "cpu"⟩,
  ⟨"show\\s+(?:me\\s+)?(?:running\\s+)?processes?",
    cats [litS "show", wsp, meOpt, runningOpt, wordOptS "processe"], "ps"⟩]

set_option maxHeartbeats 2000000 in
/-- The dict literal of `NaturalLanguageParser._build_extended_patterns`, in
source order. -/
def extendedPatterns : List PatEntry := [
  ⟨"create\\s+(?:a\\s+)?(?:new\\s+)?(?:directory|folder|dir)\\s+(.+)",
    cats [litS "create", wsp, aOpt, newOpt, dirFolderDir, wsp, cap1], "mkdir"⟩,
  ⟨"make\\s+(?:a\\s+)?(?:new\\s+)?(?:directory|folder|dir)\\s+(.+)",
    cats [litS "make", wsp, aOpt, newOpt, dirFolderDir, wsp, cap1], "mkdir"⟩,
  ⟨"new\\s+(?:directory|folder|dir)\\s+(.+)",
    cats [litS "new", wsp, dirFolderDir, wsp, cap1], "mkdir"⟩,
  ⟨"remove\\s+(?:the\\s+)?(?:directory|folder|dir)\\s+(.+)",
    cats [litS "remove", wsp, theOpt, dirFolderDir, wsp, cap1], "rm -r"⟩,
  ⟨"delete\\s+(?:the\\s+)?(?:directory|folder|dir)\\s+(.+)",
    cats [litS "delete", wsp, theOpt, dirFolderDir, wsp, cap1], "rm -r"⟩,
  ⟨"erase\\s+(?:the\\s+)?(?:directory|folder|dir)\\s+(.+)",
    cats [litS "erase", wsp, theOpt, dirFolderDir, wsp, cap1], "rm -r"⟩,
  ⟨"create\\s+(?:a\\s+)?(?:new\\s+)?file\\s+(.+)",
    cats [litS "create", wsp, aOpt, newOpt, litS "file", wsp, cap1], "touch"⟩,
  ⟨"make\\s+(?:a\\s+)?(?:new\\s+)?file\\s+(.+)",
    cats [litS "make", wsp, aOpt, newOpt, litS "file", wsp, cap1], "touch"⟩,
  ⟨"new\\s+file\\s+(.+)",
    cats [litS "new", wsp, litS "file", wsp, cap1], "touch"⟩,
  ⟨"remove\\s+(?:the\\s+)?file\\s+(.+)",
    cats [litS "remove", wsp, theOpt, litS "file", wsp, cap1], "rm"⟩,
  ⟨"delete\\s+(?:the\\s+)?file\\s+(.+)",
    cats [litS "delete", wsp, theOpt, litS "file", wsp, cap1], "rm"⟩,
  ⟨"erase\\s+(?:the\\s+)?file\\s+(.+)",
    cats [litS "erase", wsp, theOpt, litS "file", wsp, cap1], "rm"⟩,
  ⟨"go\\s+to\\s+(.+)",
    cats [litS "go", wsp, litS "to", wsp, cap1], "cd"⟩,
  ⟨"navigate\\s+to\\s+(.+)",
    cats [litS "navigate", wsp, litS "to", wsp, cap1], "cd"⟩,
  ⟨"enter\\s+(.+)",
    cats [litS "enter", wsp, cap1], "cd"⟩,
  ⟨"open\\s+(.+)",
    cats [litS "open", wsp, cap1], "cd"⟩,
  ⟨"where\\s+am\\s+i",
    cats [litS "where", wsp, litS "am", wsp, litS "i"], "pwd"⟩,
  ⟨"current\\s+directory",
    cats [litS "current", wsp, litS "directory"], "pwd"⟩,
  ⟨"show\\s+current\\s+path",
    cats [litS "show", wsp, litS "current", wsp, litS "path"], "pwd"⟩,
  ⟨"what\\s+directory\\s+am\\s+i\\s+in",
    cats [litS "what", wsp, litS "directory", wsp, litS "am", wsp, litS "i", wsp,
      litS "in"], "pwd"⟩,
  ⟨"show\\s+(?:me\\s+)?(?:the\\s+)?files?",
    cats [litS "show", wsp, meOpt, theOpt, wordOptS "file"], "ls"⟩,
  ⟨"list\\s+(?:the\\s+)?(?:files?|directory)",
    cats [litS "list", wsp, theOpt, alts [wordOptS "file", litS "directory"]], "ls"⟩,
  ⟨"what\\s+files\\s+are\\s+here",
    cats [litS "what", wsp, litS "files", wsp, litS "are", wsp, litS "here"], "ls"⟩,
  ⟨"display\\s+(?:the\\s+)?files?",
    cats [litS "display", wsp, theOpt, wordOptS "file"], "ls"⟩,
  ⟨"see\\s+(?:the\\s+)?files?",
    cats [litS "see", wsp, theOpt, wordOptS "file"], "ls"⟩,
  ⟨"show\\s+(?:me\\s+)?(?:all\\s+)?files?",
    cats [litS "show", wsp, meOpt, allOpt, wordOptS "file"], "ls -a"⟩,
  ⟨"list\\s+(?:all\\s+)?files?",
    cats [litS "list", wsp, allOpt, wordOptS "file"], "ls -a"⟩,
  ⟨"show\\s+hidden\\s+files?",
    cats [litS "show", wsp, litS "hidden", wsp, wordOptS "file"], "ls -a"⟩,
  ⟨"show\\s+(?:me\\s+)?(?:the\\s+)?contents?\\s+of\\s+(.+)",
    cats [litS "show", wsp, meOpt, theOpt, wordOptS "content", wsp, litS "of", wsp,
      cap1], "cat"⟩,
  ⟨"display\\s+(?:the\\s+)?contents?\\s+of\\s+(.+)",
    cats [litS "display", wsp, theOpt, wordOptS "content", wsp, litS "of", wsp,
      cap1], "cat"⟩,
  ⟨"read\\s+(?:the\\s+)?file\\s+(.+)",
    cats [litS "read", wsp, theOpt, litS "file", wsp, cap1], "cat"⟩,
  ⟨"view\\s+(?:the\\s+)?file\\s+(.+)",
    cats [litS "view", wsp, theOpt, litS "file", wsp, cap1], "cat"⟩,
  ⟨"open\\s+(?:the\\s+)?file\\s+(.+)",
    cats [litS "open", wsp, theOpt, litS "file", wsp, cap1], "cat"⟩,
  ⟨"copy\\s+(.+)", cats [litS "copy", wsp, cap1], "cp"⟩,
  ⟨"duplicate\\s+(.+)", cats [litS "duplicate", wsp, cap1], "cp"⟩,
  ⟨"backup\\s+(.+)", cats [litS "backup", wsp, cap1], "cp"⟩,
  ⟨"move\\s+(.+)", cats [litS "move", wsp, cap1], "mv"⟩,
  ⟨"rename\\s+(.+)", cats [litS "rename", wsp, cap1], "mv"⟩,
  ⟨"relocate\\s+(.+)", cats [litS "relocate", wsp, cap1], "mv"⟩,
  ⟨"find\\s+(?:files?\\s+)?(?:named\\s+)?(.+)",
    cats [litS "find", wsp, .opt (cats [wordOptS "file", wsp]),
      .opt (cats [litS "named", wsp]), cap1], "find -name"⟩,
  ⟨"search\\s+for\\s+(.+)",
    cats [litS "search", wsp, litS "for", wsp, cap1], "find -name"⟩,
  ⟨"look\\s+for\\s+(.+)",
    cats [litS "look", wsp, litS "for", wsp, cap1], "find -name"⟩,
  ⟨"locate\\s+(.+)", cats [litS "locate", wsp, cap1], "find -name"⟩,
  ⟨"how\\s+(?:much\\s+)?(?:cpu|processor)\\s+(?:usage|load)",
    cats [litS "how", wsp, muchOpt, alts [litS "cpu", litS "processor"], wsp,
      alts [litS "usage", litS "load"]], "cpu"⟩,
  ⟨"cpu\\s+(?:usage|load|performance)",
    cats [litS "cpu", wsp, alts [litS "usage", litS "load", litS "performance"]], "cpu"⟩,
  ⟨"processor\\s+(?:usage|load)",
    cats [litS "processor", wsp, alts [litS "usage", litS "load"]], "cpu"⟩,
  ⟨"show\\s+(?:me\\s+)?(?:the\\s+)?cpu",
    cats [litS "show", wsp, meOpt, theOpt, litS "cpu"], "cpu"⟩,
  ⟨"how\\s+(?:much\\s+)?(?:memory|ram)\\s+(?:usage|used)",
    cats [litS "how", wsp, muchOpt, alts [litS "memory", litS "ram"], wsp,
      alts [litS "usage", litS "used"]], "mem"⟩,
  ⟨"memory\\s+(?:usage|used|consumption)",
    cats [litS "memory", wsp, alts [litS "usage", litS "used", litS "consumption"]],
    "mem"⟩,
  ⟨"ram\\s+(?:usage|used|consumption)",
    cats [litS "ram", wsp, alts [litS "usage", litS "used", litS "consumption"]],
    "mem"⟩,
  ⟨"show\\s+(?:me\\s+)?(?:the\\s+)?memory",
    cats [litS "show", wsp, meOpt, theOpt, litS "memory"], "mem"⟩,
  ⟨"show\\s+(?:me\\s+)?(?:running\\s+)?processes?",
    cats [litS "show", wsp, meOpt, runningOpt, wordOptS "processe"], "ps"⟩,
  ⟨"list\\s+(?:running\\s+)?processes?",
    cats [litS "list", wsp, runningOpt, wordOptS "processe"], "ps"⟩,
  ⟨"what\\s+processes?\\s+are\\s+running",
    cats [litS "what", wsp, wordOptS "processe", wsp, litS "are", wsp,
      litS "running"], "ps"⟩,
  ⟨"running\\s+programs?",
    cats [litS "running", wsp, wordOptS "program"], "ps"⟩,
  ⟨"active\\s+processes?",
    cats [litS "active", wsp, wordOptS "processe"], "ps"⟩,
  ⟨"disk\\s+(?:usage|space|free)",
    cats [litS "disk", wsp, alts [litS "usage", litS "space", litS "free"]], "disk"⟩,
  ⟨"how\\s+much\\s+disk\\s+space",
    cats [litS "how", wsp, litS "much", wsp, litS "disk", wsp, litS "space"], "disk"⟩,
  ⟨"storage\\s+(?:usage|space)",
    cats [litS "storage", wsp, alts [litS "usage", litS "space"]], "disk"⟩,
  ⟨"show\\s+(?:me\\s+)?(?:the\\s+)?disk",
    cats [litS "show", wsp, meOpt, theOpt, litS "disk"], "disk"⟩,
  ⟨"uptime", litS "uptime", "uptime"⟩,
  ⟨"how\\s+long\\s+has\\s+(?:the\\s+)?system\\s+been\\s+running",
    cats [litS "how", wsp, litS "long", wsp, litS "has", wsp, theOpt,
      litS "system", wsp, litS "been", wsp, litS "running"], "uptime"⟩,
  ⟨"system\\s+uptime",
    cats [litS "system", wsp, litS "uptime"], "uptime"⟩,
  ⟨"network\\s+(?:info|status|statistics)",
    cats [litS "network", wsp, alts [litS "info", litS "status", litS "statistics"]],
    "net"⟩,
  ⟨"show\\s+(?:me\\s+)?(?:the\\s+)?network",
    cats [litS "show", wsp, meOpt, theOpt, litS "network"], "net"⟩,
  ⟨"internet\\s+(?:info|status)",
    cats [litS "internet", wsp, alts [litS "info", litS "status"]], "net"⟩,
  ⟨"help\\s+me", cats [litS "help", wsp, litS "me"], "help"⟩,
  ⟨"what\\s+can\\s+i\\s+do",
    cats [litS "what", wsp, litS "can", wsp, litS "i", wsp, litS "do"], "help"⟩,
  ⟨"show\\s+(?:me\\s+)?(?:the\\s+)?help",
    cats [litS "show", wsp, meOpt, theOpt, litS "help"], "help"⟩,
  ⟨"commands?", wordOptS "command", "help"⟩,
  ⟨"available\\s+commands?",
    cats [litS "available", wsp, wordOptS "command"], "help"⟩,
  ⟨"clear\\s+(?:the\\s+)?screen",
    cats [litS "clear", wsp, theOpt, litS "screen"], "clear"⟩,
  ⟨"clean\\s+(?:the\\s+)?screen",
    cats [litS "clean", wsp, theOpt, litS "screen"], "clear"⟩,
  ⟨"wipe\\s+(?:the\\s+)?screen",
    cats [litS "wipe", wsp, theOpt, litS "screen"], "clear"⟩,
  ⟨"exit\\s+(?:the\\s+)?program",
    cats [litS "exit", wsp, theOpt, litS "program"], "exit"⟩,
  ⟨"quit\\s+(?:the\\s+)?program",
    cats [litS "quit", wsp, theOpt, litS "program"], "exit"⟩,
  ⟨"close\\s+(?:the\\s+)?terminal",
    cats [litS "close", wsp, theOpt, litS "terminal"], "exit"⟩,
  ⟨"bye", litS "bye", "exit"⟩,
  ⟨"goodbye", litS "goodbye", "exit"⟩]

/-- Python `dict.update` on insertion-ordered association lists: an existing
key keeps its position and gets the update's value; new keys are appended in
the update's order (`extendedPatterns` has pairwise distinct keys). -/
def dictUpdate (base upd : List PatEntry) : List PatEntry :=
  base.map (fun e =>
    match upd.find? (fun u => u.key == e.key) with
    | some u => { e with re := u.re, cmd := u.cmd }
    | none => e)
  ++ upd.filter (fun u => !(base.any (fun e => e.key == u.key)))

/-- `NaturalLanguageParser.patterns`: `NL_PATTERNS.copy()` followed by
`update` with the extended dict. -/
def nlTable : List PatEntry := dictUpdate NL_PATTERNS extendedPatterns

/-- The scan loop of `parse`: try each pattern in table order with
`re.search`; first match wins. -/
def findFirstPat : List PatEntry → List Char → Option (String × Option (List Char))
  | [], _ => none
  | e :: rest, text =>
    match searchRE e.re text with
    | some cap => some (e.cmd, cap)
    | none => findFirstPat rest text

/-- Argument extraction from a match: no capture group means no arguments;
otherwise `group(1).strip()`, and if non-empty, whitespace-split with each
piece stripped (a no-op on split pieces). -/
def argsFromCap : Option (List Char) → List String
  | none => []
  | some cs =>
    let argText := pyStrip ⟨cs⟩
    if argText = "" then [] else pySplitWs argText

/-- The `keyword_map` dict of `NaturalLanguageParser._keyword_parse`. -/
def keywordMap : List (String × String) := [
  ("create", "mkdir"), ("make", "mkdir"), ("new", "mkdir"),
  ("remove", "rm"), ("delete", "rm"), ("erase", "rm"),
  ("go", "cd"), ("navigate", "cd"), ("enter", "cd"), ("open", "cd"),
  ("where", "pwd"), ("current", "pwd"),
  ("show", "ls"), ("list", "ls"), ("display", "ls"), ("see", "ls"), ("files", "ls"),
  ("read", "cat"), ("view", "cat"), ("contents", "cat"),
  ("cpu", "cpu"), ("memory", "mem"), ("ram", "mem"), ("processes", "ps"),
  ("disk", "disk"), ("uptime", "uptime"), ("network", "net"),
  ("help", "help"), ("clear", "clear"), ("exit", "exit"), ("quit", "exit")]

/-- The word scan of `_keyword_parse`: the first word that is a key of
`keyword_map` gives the command; the following words are the arguments. -/
def kwScan : List String → String × List String
  | [] => ("", [])
  | w :: rest =>
    match keywordMap.lookup w with
    | some cmd => (cmd, rest)
    | none => kwScan rest

/-- `NaturalLanguageParser._keyword_parse`. -/
def keywordParse (text : String) : String × List String :=
  kwScan (pySplitWs text)

/-- The parser's normalisation of the input: `input_text.strip().lower()`. -/
def normText (input_text : String) : String := pyLower (pyStrip input_text)

/-- `NaturalLanguageParser.parse`: empty/whitespace input returns
`("", [])`; otherwise scan the pattern table over the normalised text (first
match wins, capture whitespace-split into arguments), falling back to the
keyword scan. -/
def parse (input_text : String) : String × List String :=
  if input_text = "" || pyStrip input_text = "" then ("", [])
  else
    match findFirstPat nlTable (normText input_text).data with
    | some (cmd, cap) => (cmd, argsFromCap cap)
    | none => keywordParse (normText input_text)

/-- `findFirstPat` returns the command and capture of the first entry (in
table order) whose pattern search succeeds. -/
theorem findFirstPat_spec (table : List PatEntry) (text : List Char) :
    ∀ i e cap, table.get? i = some e → searchRE e.re text = some cap →
      (∀ e', e' ∈ table.take i → searchRE e'.re text = none) →
      findFirstPat table text = some (e.cmd, cap) := by
  induction table with
  | nil => intro i e cap h _ _; simp at h
  | cons hd tl ih =>
    intro i e cap hget hsearch hnone
    cases i with
    | zero =>
      simp only [List.get?] at hget
      cases hget
      simp [findFirstPat, hsearch]
    | succ n =>
      have hhd : searchRE hd.re text = none :=
        hnone hd (by simp [List.take_succ_cons])
      simp only [findFirstPat, hhd]
      exact ih n e cap (by simpa using hget) hsearch
        (fun e' he' => hnone e' (by simp [List.take_succ_cons]; exact Or.inr he'))

/-- C4: the resolver's table is the base `NL_PATTERNS` in order followed by
the extended patterns whose keys are new, in their order (the five extended
entries whose pattern string already occurs in the base are merged by
`dict.update` into their base position, with identical commands) — so every
base pattern is checked before any extended-only pattern; and for any
non-empty input, the first table entry (in table order) whose pattern search
succeeds on the normalized text determines the returned command, with its
capture group whitespace-split as the arguments. -/
theorem nl_resolution_order :
    (nlTable = NL_PATTERNS ++ extendedPatterns.filter
        (fun u => !(NL_PATTERNS.any (fun e => e.key == u.key)))) ∧
    (∀ (input : String) (i : Nat) (e : PatEntry) (cap : Option (List Char)),
        (input = "" || pyStrip input = "") = false →
        nlTable.get? i = some e →
        searchRE e.re (normText input).data = some cap →
        (∀ e', e' ∈ nlTable.take i → searchRE e'.re (normText input).data = none) →
        parse input = (e.cmd, argsFromCap cap)) := by
  constructor
  · decide
  · intro input i e cap hne hget hsearch hnone
    unfold parse
    rw [hne]
    simp only [Bool.false_eq_true, if_false,
      findFirstPat_spec nlTable (normText input).data i e cap hget hsearch hnone]

/-- C4 witness: the third table entry `go\s+to\s+(.+)` is the first to match
`"go to lib"`, and the resolver returns `cd` with the captured argument. -/
theorem nl_resolution_order_witness : parse "go to lib" = ("cd", ["lib"]) :=
  nl_resolution_order.2 "go to lib" 2
    ⟨"go\\s+to\\s+(.+)", cats [litS "go", wsp, litS "to", wsp, cap1], "cd"⟩
    (some "lib".data) (by decide) (by decide) (by decide) (by decide)

/-- C5: the four specific resolutions — `"create folder test"` to
`mkdir ["test"]`, `"show me the files"` to `ls []`, `"where am i"` to
`pwd []`, and `"zzz nonsense input"` falling through both the pattern table
and the keyword fallback to the empty command. -/
theorem nl_specific_resolutions :
    parse "create folder test" = ("mkdir", ["test"]) ∧
    parse "show me the files" = ("ls", []) ∧
    parse "where am i" = ("pwd", []) ∧
    parse "zzz nonsense input" = ("", []) :=
  ⟨by decide, by decide, by decide, by decide⟩

/-! ## The dispatcher (`src/app/cli.py`)

Handlers are opaque functions from an argument list to an outcome: a
returned value (`None` becomes the empty output), a raised `PyTermError`, or
any other raised exception — the contract of §6 of the specification.
`execute_command` is modelled as its `try` body followed by the two `except`
clauses, so that "never raises" is visible in the result. -/

/-- What a registered handler invocation does. -/
inductive HandlerOutcome where
  | ok (out : Option String)
  | raisePyTerm (msg : String)
  | raiseExc (msg : String)

/-- A registered command handler. -/
abbrev Handler := List String → HandlerOutcome

/-- `CommandRegistry.get_command`: name to handler, `none` on a miss. -/
abbrev Registry := String → Option Handler

/-- Result of a Python call: a value or a propagating exception. -/
inductive PyResult where
  | ok (s : String)
  | raisePyTerm (msg : String)
  | raiseExc (msg : String)

/-- `config.COLORS`. -/
def COLORS : List (String × String) := [
  ("reset", "\x1b[0m"), ("bold", "\x1b[1m"), ("dim", "\x1b[2m"),
  ("red", "\x1b[31m"), ("green", "\x1b[32m"), ("yellow", "\x1b[33m"),
  ("blue", "\x1b[34m"), ("magenta", "\x1b[35m"), ("cyan", "\x1b[36m"),
  ("white", "\x1b[37m")]

/-- `utils.colorize`: colour code (defaulting to reset), text, reset. -/
def colorize (text : String) (color : String) : String :=
  ((COLORS.lookup color).getD "\x1b[0m") ++ text ++ "\x1b[0m"

/-- `ERROR_MESSAGES["command_not_found"]` instantiated. -/
def commandNotFoundMsg (command : String) : String :=
  "Command '" ++ command ++ "' not found. Type 'help' for available commands."

/-- The text `_try_natural_language` hands to the resolver:
`f"{command} {' '.join(args)}".strip()`. -/
def nlInputText (command : String) (args : List String) : String :=
  pyStrip (command ++ " " ++ joinSpace args)

/-- `PyTermCLI._try_natural_language`: rebuild the input text from the
parsed tokens, resolve it, and on success execute the resolved command with
an "Understood ... as" explanation; any exception inside (including one
raised by the resolved handler) is caught and reported as command-not-found
for the original command word. -/
def tryNaturalLanguage (reg : Registry) (command : String) (args : List String) : String :=
  let input_text := nlInputText command args
  let pr := parse input_text
  if pr.1 ≠ "" then
    let command_str := pr.1 ++ " " ++ joinSpace pr.2
    let explanation := "Understood '" ++ input_text ++ "' as: " ++ colorize command_str "green"
    match reg pr.1 with
    | some f =>
      match f pr.2 with
      | .ok (some r) => if r = "" then explanation else explanation ++ "\n" ++ r
      | .ok none => explanation
      | .raisePyTerm _ => commandNotFoundMsg command
      | .raiseExc _ => commandNotFoundMsg command
    | none => explanation ++ "\nCommand '" ++ pr.1 ++ "' not found."
  else commandNotFoundMsg command

/-- The `try` body of `PyTermCLI.execute_command`: look the command up,
missing commands go to the natural-language fallback (itself total), a found
handler is invoked and its `None` result becomes `""`; a raised exception
propagates out of the body. -/
def executeBody (reg : Registry) (command : String) (args : List String) : PyResult :=
  match reg command with
  | none => .ok (tryNaturalLanguage reg command args)
  | some f =>
    match f args with
    | .ok out => .ok (out.getD "")
    | .raisePyTerm m => .raisePyTerm m
    | .raiseExc m => .raiseExc m

/-- `PyTermCLI.execute_command`: the body wrapped in
`except PyTermError` / `except Exception`, each producing an error line. -/
def execute_command (reg : Registry) (command : String) (args : List String) : PyResult :=
  match executeBody reg command args with
  | .ok s => .ok s
  | .raisePyTerm m => .ok (colorize ("Error: " ++ m) "red")
  | .raiseExc m => .ok (colorize ("Unexpected error: " ++ m) "red")

/-! ## Tokenisation (`shlex.split`, POSIX mode) -/

/-- `shlex` whitespace: space, tab, carriage return, newline. -/
def shWs (c : Char) : Bool :=
  c = ' ' || c = '\t' || c = '\x0d' || c = '\n'

/-- Lexer state: outside quotes, inside `'...'`, inside `"..."`. -/
inductive ShMode where
  | normal
  | inSingle
  | inDouble

/-- The `shlex.split` scan (POSIX rules, `whitespace_split`): whitespace
separates tokens; single quotes are fully literal; inside double quotes a
backslash escapes only `"` and `\`; outside quotes a backslash escapes the
next character; an unterminated quote or trailing escape is a `ValueError`
(`none`).  `cur = none` means no token in progress (so `""` still yields an
empty token). -/
def shlexGo : List Char → ShMode → Option (List Char) → List (List Char) →
    Option (List String)
  | [], .normal, cur, acc =>
    some ((acc ++ (match cur with | some t => [t] | none => [])).map
      (fun t => (⟨t⟩ : String)))
  | [], .inSingle, _, _ => none
  | [], .inDouble, _, _ => none
  | c :: rest, .normal, cur, acc =>
    if shWs c then
      match cur with
      | some t => shlexGo rest .normal none (acc ++ [t])
      | none => shlexGo rest .normal none acc
    else if c = '\'' then shlexGo rest .inSingle (some (cur.getD [])) acc
    else if c = '"' then shlexGo rest .inDouble (some (cur.getD [])) acc
    else if c = '\\' then
      match rest with
      | [] => none
      | d :: rest2 => shlexGo rest2 .normal (some (cur.getD [] ++ [d])) acc
    else shlexGo rest .normal (some (cur.getD [] ++ [c])) acc
  | c :: rest, .inSingle, cur, acc =>
    if c = '\'' then shlexGo rest .normal cur acc
    else shlexGo rest .inSingle (some (cur.getD [] ++ [c])) acc
  | c :: rest, .inDouble, cur, acc =>
    if c = '"' then shlexGo rest .normal cur acc
    else if c = '\\' then
      match rest with
      | [] => none
      | d :: rest2 =>
        if d = '"' || d = '\\' then
          shlexGo rest2 .inDouble (some (cur.getD [] ++ [d])) acc
        else shlexGo rest2 .inDouble (some (cur.getD [] ++ ['\\', d])) acc
    else shlexGo rest .inDouble (some (cur.getD [] ++ [c])) acc

/-- `shlex.split(s)` (POSIX, comments off). -/
def shlex_split (s : String) : Option (List String) :=
  shlexGo s.data .normal none []

/-- `PyTermCLI.parse_command`: strip, shlex-split (a `ValueError` becomes a
raised `PyTermError`, here `none`), empty input gives `("", [])`, otherwise
the lowercased first token and the remaining tokens unchanged. -/
def parse_command (input_line : String) : Option (String × List String) :=
  match shlex_split (pyStrip input_line) with
  | none => none
  | some [] => some ("", [])
  | some (p0 :: rest) => some (pyLower p0, rest)

example : parse_command "mkdir 'my dir'  x" = some ("mkdir", ["my dir", "x"]) := by decide

example : parse_command "cat \"un closed" = none := by decide

example : parse_command "SHOW  me files" = some ("show", ["me", "files"]) := by decide

/-! ## Lemmas about stripping for the dispatcher claims -/

/-- Dropping from an append when the first part drops away entirely. -/
theorem dropWhile_append_of_nil (p : Char → Bool) (l m : List Char)
    (h : l.dropWhile p = []) : (l ++ m).dropWhile p = m.dropWhile p := by
  induction l with
  | nil => simp
  | cons x xs ih =>
    by_cases hx : p x = true
    · simp only [List.dropWhile_cons, hx, if_true] at h ⊢
      simp only [List.cons_append]
      rw [List.dropWhile_cons]
      simp only [hx, if_true]
      exact ih h
    · simp [List.dropWhile_cons, hx] at h

/-- Dropping from an append when something of the first part survives. -/
theorem dropWhile_append_of_ne (p : Char → Bool) (l m : List Char)
    (h : l.dropWhile p ≠ []) : (l ++ m).dropWhile p = l.dropWhile p ++ m := by
  induction l with
  | nil => simp at h
  | cons x xs ih =>
    by_cases hx : p x = true
    · rw [List.dropWhile_cons] at h
      simp only [hx, if_true] at h
      simp only [List.cons_append, List.dropWhile_cons, hx, if_true]
      exact ih h
    · simp [List.dropWhile_cons, hx]

/-- `dropWhile` never lengthens a list. -/
theorem dropWhile_length_le (p : Char → Bool) (l : List Char) :
    (l.dropWhile p).length ≤ l.length := by
  induction l with
  | nil => simp
  | cons x xs ih =>
    by_cases hx : p x = true
    · rw [List.dropWhile_cons]
      simp only [hx, if_true]
      simp only [List.length_cons]
      omega
    · simp [List.dropWhile_cons, hx]

/-- A `dropWhile` that keeps the length keeps the list. -/
theorem dropWhile_eq_of_length (p : Char → Bool) (l : List Char)
    (h : (l.dropWhile p).length = l.length) : l.dropWhile p = l := by
  cases l with
  | nil => simp
  | cons x xs =>
    by_cases hx : p x = true
    · rw [List.dropWhile_cons] at h ⊢
      simp only [hx, if_true] at h ⊢
      have := dropWhile_length_le p xs
      simp only [List.length_cons] at h
      omega
    · simp [List.dropWhile_cons, hx]

/-- A list is a Boolean prefix of itself appended with anything. -/
theorem isPrefixOf_append_self (a t : List Char) : a.isPrefixOf (a ++ t) = true := by
  induction a with
  | nil => simp [List.isPrefixOf]
  | cons x xs ih => simp [List.isPrefixOf, ih]

/-- `(s ++ t).data = s.data ++ t.data`. -/
theorem strData_append (s t : String) : (s ++ t).data = s.data ++ t.data := by
  cases s; cases t; rfl

/-- A non-empty string that `strip` leaves unchanged remains a prefix after
appending text and stripping the whole. -/
theorem strip_append_isPrefix (c : String) (b : List Char)
    (hc : pyStrip c = c) (hne : c ≠ "") :
    c.data.isPrefixOf (pyStrip ⟨c.data ++ b⟩).data = true := by
  have hdata : dropTrailingWs (c.data.dropWhile pyIsSpace) = c.data :=
    congrArg String.data hc
  have hlen1 := dropWhile_length_le pyIsSpace c.data.reverse
  have hlen2 := dropWhile_length_le pyIsSpace c.data
  have hlenEq : (c.data.dropWhile pyIsSpace).length = c.data.length := by
    have := congrArg List.length hdata
    simp only [dropTrailingWs, List.length_reverse] at this
    have h3 := dropWhile_length_le pyIsSpace (c.data.dropWhile pyIsSpace).reverse
    simp only [List.length_reverse] at h3
    omega
  have hdw : c.data.dropWhile pyIsSpace = c.data :=
    dropWhile_eq_of_length pyIsSpace c.data hlenEq
  have hdt : dropTrailingWs c.data = c.data := by rw [hdw] at hdata; exact hdata
  have hcd : c.data ≠ [] := by
    intro h
    apply hne
    cases c
    simp only at h
    rw [h]
  have hdwne : c.data.dropWhile pyIsSpace ≠ [] := by rw [hdw]; exact hcd
  show c.data.isPrefixOf (dropTrailingWs ((c.data ++ b).dropWhile pyIsSpace)) = true
  rw [dropWhile_append_of_ne pyIsSpace c.data b hdwne, hdw]
  unfold dropTrailingWs at hdt ⊢
  rw [List.reverse_append]
  by_cases hb : b.reverse.dropWhile pyIsSpace = []
  · rw [dropWhile_append_of_nil pyIsSpace _ _ hb, hdt]
    have h := isPrefixOf_append_self c.data []
    rwa [List.append_nil] at h
  · rw [dropWhile_append_of_ne pyIsSpace _ _ hb, List.reverse_append, List.reverse_reverse]
    exact isPrefixOf_append_self _ _

/-- Strings with equal character data are equal. -/
theorem strEq_of_data {s t : String} (h : s.data = t.data) : s = t := by
  cases s; cases t; exact congrArg String.mk h

/-- C6 counterexample: for the line `"SHOW  me files"` (a registry miss),
the dispatcher hands the resolver the reconstruction
`"show me files"` — first token lowercased, whitespace collapsed — which is
not the original line, refuting "the entire original input line ...
unaltered". -/
theorem dispatcher_nl_line_counterexample :
    parse_command "SHOW  me files" = some ("show", ["me", "files"]) ∧
    nlInputText "show" ["me", "files"] = "show me files" ∧
    "show me files" ≠ "SHOW  me files" := by
  refine ⟨by decide, by decide, by decide⟩

/-- C6 (amended): on a registry miss the dispatcher runs the
natural-language fallback, whose resolver input is the stripped single-space
join of the lowercased command token and the parsed argument tokens — the
whole tokenized line, beginning with the command token (not just the
remainder), though equal to the original line only up to tokenization. -/
theorem dispatcher_nl_input_amended :
    (∀ (reg : Registry) (c : String) (as : List String),
        reg c = none →
        execute_command reg c as = .ok (tryNaturalLanguage reg c as) ∧
        nlInputText c as = pyStrip (c ++ " " ++ joinSpace as)) ∧
    (∀ (c : String) (as : List String), pyStrip c = c → c ≠ "" →
        c.data.isPrefixOf (nlInputText c as).data = true) := by
  constructor
  · intro reg c as hmiss
    constructor
    · unfold execute_command executeBody
      rw [hmiss]
    · rfl
  · intro c as hc hne
    have h := strip_append_isPrefix c (" " ++ joinSpace as).data hc hne
    have heq : (c ++ " " ++ joinSpace as) =
        (⟨c.data ++ (" " ++ joinSpace as).data⟩ : String) := by
      apply strEq_of_data
      simp [strData_append, List.append_assoc]
    unfold nlInputText
    rw [heq]
    exact h

/-- C6 witness: the amended statement at a concrete miss. -/
theorem dispatcher_nl_input_amended_witness :
    (execute_command (fun _ => none) "show" ["me", "files"] =
        .ok (tryNaturalLanguage (fun _ => none) "show" ["me", "files"]) ∧
      nlInputText "show" ["me", "files"] =
        pyStrip ("show" ++ " " ++ joinSpace ["me", "files"])) ∧
    ("show".data.isPrefixOf (nlInputText "show" ["me", "files"]).data = true) :=
  ⟨dispatcher_nl_input_amended.1 (fun _ => none) "show" ["me", "files"] rfl,
    dispatcher_nl_input_amended.2 "show" ["me", "files"] (by decide) (by decide)⟩

/-- C7: for every registry, command and argument list, `execute_command`
yields `.ok` — it never lets an exception propagate — and when the
registered handler raises, the result is the corresponding error line
(`Unexpected error:` for a generic exception, `Error:` for a
`PyTermError`). -/
theorem dispatcher_backstop (reg : Registry) (command : String) (args : List String) :
    (∃ s, execute_command reg command args = .ok s) ∧
    (∀ f, reg command = some f →
      (∀ m, f args = .raiseExc m →
        execute_command reg command args =
          .ok (colorize ("Unexpected error: " ++ m) "red")) ∧
      (∀ m, f args = .raisePyTerm m →
        execute_command reg command args =
          .ok (colorize ("Error: " ++ m) "red"))) := by
  constructor
  · unfold execute_command executeBody
    cases hreg : reg command with
    | none => exact ⟨_, rfl⟩
    | some f =>
      dsimp only
      cases hf : f args with
      | ok out => exact ⟨_, rfl⟩
      | raisePyTerm m => exact ⟨_, rfl⟩
      | raiseExc m => exact ⟨_, rfl⟩
  · intro f hreg
    constructor
    · intro m hm
      unfold execute_command executeBody
      rw [hreg]
      dsimp only
      rw [hm]
    · intro m hm
      unfold execute_command executeBody
      rw [hreg]
      dsimp only
      rw [hm]

/-- A registry with a single handler that raises a generic exception. -/
def regBoom : Registry := fun c =>
  if c = "boom" then some (fun _ => .raiseExc "kaboom") else none

/-- C7 witness: the raising handler's exception is converted into the
"Unexpected error" line. -/
theorem dispatcher_backstop_witness :
    execute_command regBoom "boom" [] =
      .ok (colorize ("Unexpected error: " ++ "kaboom") "red") :=
  ((dispatcher_backstop regBoom "boom" []).2 (fun _ => .raiseExc "kaboom") rfl).1
    "kaboom" rfl

/-! ## Command history (`CommandHistory.add`, `src/app/cli.py`) -/

/-- `config.MAX_HISTORY_SIZE`. -/
def MAX_HISTORY_SIZE : Nat := 1000

/-- `CommandHistory.add`: append when the stripped command is non-empty and
differs from the immediately preceding entry; `pop(0)` when the bound is
exceeded (persistence is a best-effort side effect with no bearing on the
list). -/
def historyAdd (max_size : Nat) (history : List String) (command : String) :
    List String :=
  if pyStrip command ≠ "" ∧ (history = [] ∨ history.getLast? ≠ some command) then
    let h := history ++ [command]
    if h.length > max_size then h.drop 1 else h
  else history

/-- C8: adding a command equal to the immediately preceding entry leaves the
history unchanged; and adding a fresh distinct command to a full history of
size `N` drops the oldest entry, keeping exactly the most recent `N` in
insertion order. -/
theorem history_dedup_and_bound :
    (∀ (max_size : Nat) (history : List String) (command : String),
        history.getLast? = some command →
        historyAdd max_size history command = history) ∧
    (∀ (max_size : Nat) (history : List String) (command : String),
        0 < max_size → history.length = max_size →
        pyStrip command ≠ "" → history.getLast? ≠ some command →
        historyAdd max_size history command = history.tail ++ [command] ∧
        (history.tail ++ [command]).length = max_size) := by
  constructor
  · intro max_size history command hlast
    unfold historyAdd
    rw [if_neg]
    rintro ⟨-, h2 | h2⟩
    · rw [h2] at hlast
      simp at hlast
    · exact h2 hlast
  · intro max_size history command hpos hlen hstrip hlast
    unfold historyAdd
    rw [if_pos ⟨hstrip, Or.inr hlast⟩]
    have hgt : (history ++ [command]).length > max_size := by
      simp [hlen]
    rw [if_pos hgt]
    cases history with
    | nil => simp at hlen; omega
    | cons x xs =>
      constructor
      · simp
      · simp only [List.length_cons] at hlen
        simp [List.length_append]
        omega

/-- C8 witness: consecutive duplicate collapses; the third distinct command
on a history bounded at 2 drops the oldest. -/
theorem history_dedup_and_bound_witness :
    historyAdd 2 ["a", "b"] "b" = ["a", "b"] ∧
    (historyAdd 2 ["a", "b"] "c" = ["a", "b"].tail ++ ["c"] ∧
      (["a", "b"].tail ++ ["c"]).length = 2) :=
  ⟨history_dedup_and_bound.1 2 ["a", "b"] "b" (by decide),
    history_dedup_and_bound.2 2 ["a", "b"] "c" (by decide) (by decide) (by decide)
      (by decide)⟩

/-! ## Filesystem commands (`src/app/commands/fs.py`)

Each per-target step returns its output line together with the filesystem
mutation it performs (`FsEffect.skip` when nothing is touched); the OS calls
`Path.mkdir`, `shutil.rmtree`, `Path.unlink`, `Path.touch` are modelled as
emitted effects, with their documented error outcomes (target exists, parent
missing) decided by the `FS` parameter. -/

/-- A filesystem mutation performed by a command. -/
inductive FsEffect where
  | skip
  | mkdirEff (p : PyPath) (parents : Bool)
  | rmtreeEff (p : PyPath)
  | unlinkEff (p : PyPath)
  | touchEff (p : PyPath)
deriving DecidableEq, Repr

/-- `ERROR_MESSAGES["file_not_found"]` instantiated. -/
def fileNotFoundMsg (path : String) : String :=
  "File or directory not found: " ++ path

/-- `ERROR_MESSAGES["invalid_path"]` instantiated. -/
def invalidPathMsg (path : String) : String := "Invalid path: " ++ path

/-- `ERROR_MESSAGES["permission_denied"]` instantiated. -/
def permissionDeniedMsg (path : String) : String := "Permission denied: " ++ path

/-- `SUCCESS_MESSAGES["directory_created"]` instantiated. -/
def dirCreatedMsg (path : String) : String :=
  "Directory '" ++ path ++ "' created successfully"

/-- `SUCCESS_MESSAGES["file_deleted"]` instantiated. -/
def fileDeletedMsg (path : String) : String :=
  "File '" ++ path ++ "' deleted successfully"

/-- `SUCCESS_MESSAGES["directory_deleted"]` instantiated. -/
def dirDeletedMsg (path : String) : String :=
  "Directory '" ++ path ++ "' deleted successfully"

/-- `cmd_rm`'s argument loop sets `recursive` iff some argument is `-r`. -/
def rmRecursive (args : List String) : Bool := args.any (fun a => a == "-r")

/-- `cmd_rm`'s targets: the arguments that do not start with `-`, in order. -/
def rmTargets (args : List String) : List String :=
  args.filter (fun a => !(strStartsWith a "-"))

/-- One iteration of `cmd_rm`'s target loop.  `safe_join(".", target)`
resolves in the jail; a missing target reports file-not-found; a directory
without `-r` reports the use-recursive message and removes nothing;
otherwise `rmtree`/`unlink` runs.  A raised `SecurityError` or `PathError`
is caught by the loop's `except` clauses. -/
def rmOne (fs : FS) (rootDir : PyPath) (recursive : Bool) (target : String) :
    String × FsEffect :=
  match safe_join fs rootDir "." [target] with
  | .err (.security m) => ("Security error: " ++ m, .skip)
  | .err (.pathErr m) => ("Error removing '" ++ target ++ "': " ++ m, .skip)
  | .ok p =>
    if fs.pathExists p = false then (fileNotFoundMsg (pathStr p), .skip)
    else if fs.isDir p = true then
      if recursive = false then
        ("Cannot remove directory '" ++ target ++ "': use -r for recursive removal",
          .skip)
      else (dirDeletedMsg (pathStr p), .rmtreeEff p)
    else (fileDeletedMsg (pathStr p), .unlinkEff p)

/-- The per-target results of `cmd_rm`, in target order. -/
def cmdRmResults (fs : FS) (rootDir : PyPath) (args : List String) :
    List (String × FsEffect) :=
  (rmTargets args).map (rmOne fs rootDir (rmRecursive args))

/-- `fs.cmd_rm`: usage line on no arguments, error on no targets, otherwise
the newline-joined per-target lines and the effects performed. -/
def cmd_rm (fs : FS) (rootDir : PyPath) (args : List String) :
    String × List FsEffect :=
  if args = [] then
    ("Usage: rm [options] <file>...\nUse -r for directories, -f to force.", [])
  else if rmTargets args = [] then
    ("Error: No files or directories specified.", [])
  else
    let results := cmdRmResults fs rootDir args
    (String.intercalate "\n" (results.map Prod.fst), results.map Prod.snd)

/-- C9: an `rm` invocation without `-r` on a target that resolves inside the
jail to an existing directory produces exactly the use-recursive-flag
message for that target, and performs no removal for it, for every
filesystem. -/
theorem rm_dir_without_recursive (fs : FS) (rootDir : PyPath) (args : List String)
    (i : Nat) (target : String) (p : PyPath)
    (hnr : rmRecursive args = false)
    (ht : (rmTargets args)[i]? = some target)
    (hsj : safe_join fs rootDir "." [target] = .ok p)
    (hex : fs.pathExists p = true) (hdir : fs.isDir p = true) :
    (cmdRmResults fs rootDir args)[i]? =
      some ("Cannot remove directory '" ++ target ++ "': use -r for recursive removal",
        FsEffect.skip) ∧
    (cmd_rm fs rootDir args).2[i]? = some FsEffect.skip := by
  have hone : rmOne fs rootDir false target =
      ("Cannot remove directory '" ++ target ++ "': use -r for recursive removal",
        FsEffect.skip) := by
    unfold rmOne
    rw [hsj]
    dsimp only
    rw [hex]
    simp [hdir]
  have hres : (cmdRmResults fs rootDir args)[i]? =
      some ("Cannot remove directory '" ++ target ++ "': use -r for recursive removal",
        FsEffect.skip) := by
    unfold cmdRmResults
    rw [hnr, List.getElem?_map, ht]
    simp [hone]
  refine ⟨hres, ?_⟩
  have hargs : args ≠ [] := by
    intro he
    rw [he] at ht
    simp [rmTargets] at ht
  have htg : rmTargets args ≠ [] := by
    intro he
    rw [he] at ht
    simp at ht
  unfold cmd_rm
  rw [if_neg hargs, if_neg htg]
  dsimp only
  rw [List.getElem?_map, hres]
  rfl

/-- C9 witness: `rm testdir` (no `-r`) on the directory `/jail/testdir` of
`fsRm`. -/
theorem rm_dir_without_recursive_witness :
    (cmdRmResults fsRm (parsePath "/jail") ["testdir"])[0]? =
      some ("Cannot remove directory '" ++ "testdir" ++ "': use -r for recursive removal",
        FsEffect.skip) ∧
    (cmd_rm fsRm (parsePath "/jail") ["testdir"]).2[0]? = some FsEffect.skip :=
  rm_dir_without_recursive fsRm (parsePath "/jail") ["testdir"] 0 "testdir"
    { absolute := true, comps := ["jail", "testdir"] }
    (by decide) (by decide) (by decide) (by decide) (by decide)

/-- The invalid filename characters of `utils.validate_filename`. -/
def invalidChars : List Char := ['<', '>', ':', '\"', '/', '\\', '|', '?', '*']

/-- The reserved Windows device names of `utils.validate_filename`. -/
def reservedNames : List String := [
  "CON", "PRN", "AUX", "NUL",
  "COM1", "COM2", "COM3", "COM4", "COM5", "COM6", "COM7", "COM8", "COM9",
  "LPT1", "LPT2", "LPT3", "LPT4", "LPT5", "LPT6", "LPT7", "LPT8", "LPT9"]

/-- `utils.validate_filename`: reject empty/whitespace names, names holding
any invalid character, and (case-insensitively) reserved device names. -/
def validate_filename (filename : String) : Bool :=
  if filename = "" || pyStrip filename = "" then false
  else if invalidChars.any (fun c => filename.data.contains c) then false
  else if reservedNames.contains (pyUpper filename) then false
  else true

/-- `cmd_mkdir`'s argument loop sets `create_parents` iff some argument is
`-p`. -/
def mkdirParents (args : List String) : Bool := args.any (fun a => a == "-p")

/-- `cmd_mkdir`'s directory operands: the arguments not starting with `-`. -/
def mkdirDirs (args : List String) : List String :=
  args.filter (fun a => !(strStartsWith a "-"))

/-- The parent of a path. -/
def parentOf (p : PyPath) : PyPath :=
  { absolute := p.absolute, comps := p.comps.dropLast }

/-- One iteration of `cmd_mkdir`'s loop: an invalid name yields the
invalid-path message before any path is built; then
`safe_join(".", directory)` and `Path.mkdir(parents, exist_ok=False)`, whose
`FileExistsError` becomes the already-exists line and whose
`FileNotFoundError` (missing parent without `-p`, an `OSError`) becomes the
permission-denied line. -/
def mkdirOne (fs : FS) (rootDir : PyPath) (create_parents : Bool) (d : String) :
    String × FsEffect :=
  if validate_filename d = false then (invalidPathMsg d, .skip)
  else
    match safe_join fs rootDir "." [d] with
    | .err (.security m) => ("Security error: " ++ m, .skip)
    | .err (.pathErr m) => ("Error creating directory '" ++ d ++ "': " ++ m, .skip)
    | .ok p =>
      if fs.pathExists p = true then ("Directory '" ++ d ++ "' already exists.", .skip)
      else if create_parents = false ∧ fs.pathExists (parentOf p) = false then
        (permissionDeniedMsg d, .skip)
      else (dirCreatedMsg (pathStr p), .mkdirEff p create_parents)

/-- The per-operand results of `cmd_mkdir`, in operand order. -/
def cmdMkdirResults (fs : FS) (rootDir : PyPath) (args : List String) :
    List (String × FsEffect) :=
  (mkdirDirs args).map (mkdirOne fs rootDir (mkdirParents args))

/-- `fs.cmd_mkdir`. -/
def cmd_mkdir (fs : FS) (rootDir : PyPath) (args : List String) :
    String × List FsEffect :=
  if args = [] then
    ("Usage: mkdir [options] <directory>...\nUse -p to create parent directories.", [])
  else if mkdirDirs args = [] then
    ("Error: No directories specified.", [])
  else
    let results := cmdMkdirResults fs rootDir args
    (String.intercalate "\n" (results.map Prod.fst), results.map Prod.snd)

/-- One iteration of `cmd_touch`'s loop: an invalid name yields the
invalid-path message and touches nothing; otherwise
`Path.touch(exist_ok=True)` creates or updates the file, after which the
source's `exists()` check is true, so the reported line is always
`Touched ...` (the `Created` branch is unreachable). -/
def touchOne (fs : FS) (rootDir : PyPath) (filename : String) : String × FsEffect :=
  if validate_filename filename = false then (invalidPathMsg filename, .skip)
  else
    match safe_join fs rootDir "." [filename] with
    | .err (.security m) => ("Security error: " ++ m, .skip)
    | .err (.pathErr m) => ("Error touching '" ++ filename ++ "': " ++ m, .skip)
    | .ok p => ("Touched '" ++ filename ++ "'", .touchEff p)

/-- The per-operand results of `cmd_touch`, in argument order (`cmd_touch`
takes no flags: every argument is a filename). -/
def cmdTouchResults (fs : FS) (rootDir : PyPath) (args : List String) :
    List (String × FsEffect) :=
  args.map (touchOne fs rootDir)

/-- `fs.cmd_touch`. -/
def cmd_touch (fs : FS) (rootDir : PyPath) (args : List String) :
    String × List FsEffect :=
  if args = [] then ("Usage: touch <file>...", [])
  else
    let results := cmdTouchResults fs rootDir args
    (String.intercalate "\n" (results.map Prod.fst), results.map Prod.snd)

/-- A name matching the claim's invalid conditions fails
`validate_filename`. -/
theorem validate_filename_false (name : String)
    (h : invalidChars.any (fun c => name.data.contains c) = true ∨
      reservedNames.contains (pyUpper name) = true ∨ pyStrip name = "") :
    validate_filename name = false := by
  unfold validate_filename
  by_cases h0 : (name = "" || pyStrip name = "") = true
  · rw [if_pos h0]
  · rw [if_neg h0]
    by_cases h1 : invalidChars.any (fun c => name.data.contains c) = true
    · rw [if_pos h1]
    · rw [if_neg h1]
      by_cases h2 : reservedNames.contains (pyUpper name) = true
      · rw [if_pos h2]
      · exfalso
        rcases h with h | h | h
        · exact h1 h
        · exact h2 h
        · exact h0 (by simp [h])

/-- C10: a name containing an invalid character, or equal (up to case) to a
reserved device name, or empty/whitespace, makes `cmd_mkdir` and `cmd_touch`
report the invalid-path message for that operand and perform no filesystem
effect for it — in particular multi-component operands such as `a/b` are
rejected (they contain `/`), even with `mkdir -p`. -/
theorem invalid_name_rejected (name : String)
    (h : invalidChars.any (fun c => name.data.contains c) = true ∨
      reservedNames.contains (pyUpper name) = true ∨ pyStrip name = "")
    (fs : FS) (rootDir : PyPath) :
    (∀ (args : List String) (i : Nat), (mkdirDirs args)[i]? = some name →
      (cmdMkdirResults fs rootDir args)[i]? = some (invalidPathMsg name, FsEffect.skip)) ∧
    (∀ (args : List String) (i : Nat), args[i]? = some name →
      (cmdTouchResults fs rootDir args)[i]? = some (invalidPathMsg name, FsEffect.skip)) := by
  have hval := validate_filename_false name h
  constructor
  · intro args i hi
    have hone : mkdirOne fs rootDir (mkdirParents args) name =
        (invalidPathMsg name, FsEffect.skip) := by
      unfold mkdirOne
      rw [if_pos hval]
    unfold cmdMkdirResults
    rw [List.getElem?_map, hi]
    simp [hone]
  · intro args i hi
    have hone : touchOne fs rootDir name = (invalidPathMsg name, FsEffect.skip) := by
      unfold touchOne
      rw [if_pos hval]
    unfold cmdTouchResults
    rw [List.getElem?_map, hi]
    simp [hone]

/-- C10 witness: `mkdir -p a/b` rejects the multi-component operand, and
`touch con` rejects the reserved device name, both with no effect. -/
theorem invalid_name_rejected_witness :
    (cmdMkdirResults fsRm (parsePath "/jail") ["-p", "a/b"])[0]? =
      some (invalidPathMsg "a/b", FsEffect.skip) ∧
    (cmdTouchResults fsRm (parsePath "/jail") ["con"])[0]? =
      some (invalidPathMsg "con", FsEffect.skip) :=
  ⟨(invalid_name_rejected "a/b" (Or.inl (by decide)) fsRm (parsePath "/jail")).1
      ["-p", "a/b"] 0 (by decide),
    (invalid_name_rejected "con" (Or.inr (Or.inl (by decide))) fsRm (parsePath "/jail")).2
      ["con"] 0 (by decide)⟩
